import Mathlib

/-!
A shallow embedding, in Lean 4, of the ucfb chunk reader and the model /
object decoders of the `swbf-unmunge` repository (files
`src/ucfb_reader.hpp`, `src/handle_model.cpp`, `src/handle_object.cpp`),
together with theorems settling the specification claims about them.

Modelling conventions:
* byte buffers are `List Nat` (each element a byte value; reads reduce
  modulo 256 where the width matters);
* machine integers are `Nat` (or `Int` for signed values) with explicit
  `% 2^w` where overflow matters;
* fallible C++ code (`throw`) is embedded with `Except Err`;
* mutable reader state is passed explicitly: an operation returns the
  value read together with the advanced reader;
* IEEE-754 float post-processing of decoded vertex attributes
  (dequantization, unorm/snorm unpacking) is outside the claims checked
  here, so decoded attribute streams are kept in their raw integer form.
-/

/-- Error kinds of the decoder, following the spec's error-handling design
(BoundsViolation, UnexpectedMagic, UnknownModelInfo, InvalidIndexBuffer,
plus the `std::out_of_range` thrown by `std::string_view::substr`). -/
inductive Err where
  | boundsViolation
  | sizeMismatch
  | unexpectedMagic
  | unknownModelInfo
  | invalidIndexBuffer
  | outOfRange
  deriving Repr, DecidableEq

/-- Little-endian interpretation of a byte list as an unsigned integer. -/
def leNat : List Nat → Nat
  | [] => 0
  | b :: bs => b % 256 + 256 * leNat bs

/-- The four little-endian bytes of a 32-bit value. -/
def le4 (n : Nat) : List Nat :=
  [n % 256, n / 256 % 256, n / 65536 % 256, n / 16777216 % 256]

/-- The two little-endian bytes of a 16-bit value. -/
def le2 (n : Nat) : List Nat :=
  [n % 256, n / 256 % 256]

/-- Reinterpret a byte list as an array of little-endian `u16` values
(`gsl::span<const std::uint16_t>` over the chunk payload). -/
def toU16s : List Nat → List Nat
  | b0 :: b1 :: rest => (b0 % 256 + 256 * (b1 % 256)) :: toU16s rest
  | _ => []

/-- A four-character magic number as its 32-bit little-endian integer value
(`Magic_number`; `create_magic_number` composes byte values in low-to-high
order). -/
def mnOf (a b c d : Nat) : Nat := a + 256 * (b + 256 * (c + 256 * d))

/-- Round `n` up to the next multiple of four, exactly as
`Ucfb_reader::align_head` does on the value of the head: if the remainder
by four is nonzero, add its complement; no clamping of any kind. -/
def align4 (n : Nat) : Nat :=
  if n % 4 ≠ 0 then n + (4 - n % 4) else n

/-- `Ucfb_reader`: a non-owning view of one ucfb chunk (`ucfb_reader.hpp`).
Immutable: magic number `mn`, payload size `size`, payload bytes `data`.
Mutable: the read head `head` (an offset into the payload). -/
structure Ucfb_reader where
  mn : Nat
  size : Nat
  data : List Nat
  head : Nat
  deriving Repr, DecidableEq

/-- A well-formed reader: the payload view really has `size` bytes and
they are byte values. (`Ucfb_reader`'s public constructor guarantees this:
it fails with a size-mismatch error otherwise.) -/
def Ucfb_reader.wf (r : Ucfb_reader) : Prop :=
  r.data.length = r.size ∧ ∀ b ∈ r.data, b < 256

/-- `Ucfb_reader::align_head` (ucfb_reader.hpp, lines 357-362): advance the
head to the next four-byte margin. The source does not compare the rounded
head against `_size`; there is no clamping. -/
def align_head (r : Ucfb_reader) : Ucfb_reader :=
  if r.head % 4 ≠ 0 then { r with head := r.head + (4 - r.head % 4) } else r

/-- Modelled from the spec: `Ucfb_reader::check_head` is only declared in
`ucfb_reader.hpp` (line 355); its body lives in a translation unit that is
not part of the given sources. Per the spec's reader invariant, a read
whose end goes past the chunk's declared size is a BoundsViolation, so
`check_head` fails exactly when the (already advanced) head exceeds
`size`. -/
def check_head (r : Ucfb_reader) : Except Err Ucfb_reader :=
  if r.size < r.head then .error .boundsViolation else .ok r

/-- The shared body of `Ucfb_reader::read_trivial` and
`Ucfb_reader::read_array` (ucfb_reader.hpp, lines 66-126) for a read of
`n` bytes: record the current position, advance the head by `n`,
`check_head`, then `align_head` unless the read is unaligned; the value
read is the `n` bytes at the recorded position. -/
def read_bytes (r : Ucfb_reader) (n : Nat) (unaligned : Bool) :
    Except Err (List Nat × Ucfb_reader) := do
  let cur_pos := r.head
  let r ← check_head { r with head := r.head + n }
  .ok ((r.data.drop cur_pos).take n, if unaligned then r else align_head r)

/-- Modelled from the spec: `Ucfb_reader::consume` is declared at
ucfb_reader.hpp line 314 but its body is in the missing translation unit;
the spec says it advances the head by a byte count with the same bounds
and alignment rules as a trivial read. -/
def consume (r : Ucfb_reader) (amount : Nat) (unaligned : Bool) :
    Except Err Ucfb_reader :=
  (read_bytes r amount unaligned).map (·.2)

/-- Modelled from the spec: `cstring_length` (from the missing
`string_helpers.hpp`) scans at most `maxLen` characters, counting those
before the first NUL. -/
def cstring_length : List Nat → Nat → Nat
  | _, 0 => 0
  | [], _ + 1 => 0
  | b :: bs, maxLen + 1 => if b % 256 = 0 then 0 else 1 + cstring_length bs maxLen

/-- `Ucfb_reader::read_string` (ucfb_reader.hpp, lines 155-168): scan for
the string length bounded by the remaining payload, advance the head past
the NUL, `check_head`, then align unless unaligned. A missing terminator
makes the advanced head exceed `size`, which `check_head` rejects. -/
def read_string (r : Ucfb_reader) (unaligned : Bool) :
    Except Err (List Nat × Ucfb_reader) := do
  let s := r.data.drop r.head
  let string_length := cstring_length s (r.size - r.head)
  let r ← check_head { r with head := r.head + (string_length + 1) }
  .ok (s.take string_length, if unaligned then r else align_head r)

/-- The magic number of the child chunk that starts at the parent's head:
the four bytes at the head, read little-endian. -/
def child_magic (r : Ucfb_reader) : Nat :=
  leNat ((r.data.drop r.head).take 4)

/-- The declared size of the child chunk that starts at the parent's head:
the four bytes after the child's magic, read little-endian. -/
def child_size (r : Ucfb_reader) : Nat :=
  leNat ((r.data.drop (r.head + 4)).take 4)

/-- Modelled from the spec: `Ucfb_reader::read_child` is declared at
ucfb_reader.hpp line 192 with its body in the missing translation unit.
Per the spec, it interprets the bytes at the head as a chunk header (magic
then size, 8 bytes), bounds-checks the child's declared size against the
remaining parent payload, consumes the child's payload and applies the
usual alignment to the parent head; the sub-reader it returns views the
child's payload with the head reset to zero. -/
def read_child (r : Ucfb_reader) (unaligned : Bool) :
    Except Err (Ucfb_reader × Ucfb_reader) :=
  if r.size < r.head + 8 then .error .boundsViolation
  else if r.size < r.head + 8 + child_size r then .error .boundsViolation
  else
    let child : Ucfb_reader :=
      { mn := child_magic r, size := child_size r,
        data := (r.data.drop (r.head + 8)).take (child_size r), head := 0 }
    let r2 := { r with head := r.head + 8 + child_size r }
    .ok (child, if unaligned then r2 else align_head r2)

/-- Modelled from the spec: `Ucfb_reader::read_child_strict` (declared at
ucfb_reader.hpp lines 241-246 and 350, body in the missing translation
unit) reads a child and verifies its magic number against the expected
tag; on a mismatch it fails with "unexpected magic" and does not advance
the parent head. -/
def read_child_strict (r : Ucfb_reader) (expected : Nat) (unaligned : Bool) :
    Except Err (Ucfb_reader × Ucfb_reader) := do
  let (child, r2) ← read_child r unaligned
  if child.mn = expected then .ok (child, r2) else .error .unexpectedMagic

/-- Modelled from the spec: `Ucfb_reader::operator bool` (ucfb_reader.hpp
line 330, body in the missing translation unit) — a reader is truthy while
`head < size`. -/
def has_remaining (r : Ucfb_reader) : Bool := r.head < r.size

/-- Magic number of a "NAME" chunk. -/
def NAME_mn : Nat := mnOf 78 65 77 69

/-- Magic number of a "VRTX" chunk. -/
def VRTX_mn : Nat := mnOf 86 82 84 88

/-- Magic number of a "NODE" chunk. -/
def NODE_mn : Nat := mnOf 78 79 68 69

/-- Magic number of an "INFO" chunk. -/
def INFO_mn : Nat := mnOf 73 78 70 79

/-- Magic number of a "segm" chunk. -/
def segm_mn : Nat := mnOf 115 101 103 109

/-- Magic number of an "MTRL" chunk. -/
def MTRL_mn : Nat := mnOf 77 84 82 76

/-- Magic number of an "RTYP" chunk. -/
def RTYP_mn : Nat := mnOf 82 84 89 80

/-- Magic number of an "MNAM" chunk. -/
def MNAM_mn : Nat := mnOf 77 78 65 77

/-- Magic number of a "TNAM" chunk. -/
def TNAM_mn : Nat := mnOf 84 78 65 77

/-- Magic number of a "BNAM" chunk. -/
def BNAM_mn : Nat := mnOf 66 78 65 77

/-- Magic number of a "BMAP" chunk. -/
def BMAP_mn : Nat := mnOf 66 77 65 80

/-- Magic number of an "IBUF" chunk. -/
def IBUF_mn : Nat := mnOf 73 66 85 70

/-- Magic number of a "VBUF" chunk. -/
def VBUF_mn : Nat := mnOf 86 66 85 70

/-- Magic number of an "STRP" chunk. -/
def STRP_mn : Nat := mnOf 83 84 82 80

/-- Magic number of a "POSI" chunk. -/
def POSI_mn : Nat := mnOf 80 79 83 73

/-- Magic number of a "NORM" chunk. -/
def NORM_mn : Nat := mnOf 78 79 82 77

/-- Magic number of a "TEX0" chunk. -/
def TEX0_mn : Nat := mnOf 84 69 88 48

/-- Magic number of a "COL0" chunk. -/
def COL0_mn : Nat := mnOf 67 79 76 48

/-- Magic number of a "BONE" chunk. -/
def BONE_mn : Nat := mnOf 66 79 78 69

/-- Magic number of a "PROP" chunk. -/
def PROP_mn : Nat := mnOf 80 82 79 80

/-- Magic number of a "BASE" chunk. -/
def BASE_mn : Nat := mnOf 66 65 83 69

/-- Magic number of a "TYPE" chunk. -/
def TYPE_mn : Nat := mnOf 84 89 80 69

/-- `msh::Lod` (modelled from the spec's data model: one of zero, one,
two, lowres; `msh_builder.hpp` is not among the given sources). -/
inductive Lod where
  | zero
  | one
  | two
  | lowres
  deriving Repr, DecidableEq

/-- `msh::Render_type` (modelled from the spec's data model). The PS2
`RTYP` path stores a raw `u32` cast to this enum, kept here as `code`;
the enum's numeric values are not visible in the given sources. -/
inductive Render_type where
  | normal
  | bumpmap
  | env_map
  | wireframe
  | scrolling
  | energy
  | animated
  | refraction
  | code (n : Nat)
  deriving Repr, DecidableEq

/-- `msh::Render_type_swbf1` (modelled from the spec's data model). -/
inductive Render_type_swbf1 where
  | normal
  | specular
  | glow
  | detail
  | scroll
  | reflection
  | camouflage
  | refraction
  | bumpmap
  | bumpmap_specular
  | water
  deriving Repr, DecidableEq

/-- `msh::Render_flags` (modelled from the spec's data model: a set of
render flags; `set_flags` turns one on). -/
structure Render_flags where
  hardedged : Bool := false
  transparent : Bool := false
  glow : Bool := false
  additive : Bool := false
  specular : Bool := false
  doublesided : Bool := false
  deriving Repr, DecidableEq

/-- `msh::Material` (modelled from the spec's data model). Colour fields
keep the packed `u32` the decoder unpacks (the unorm float unpacking is
not needed by any claim); `specular_value` keeps the integer the decoder
casts to float; `params` keep the raw little-endian word of the bytes the
decoder read. -/
structure Material where
  name : List Nat := []
  textures : List (List Nat) := [[], [], [], []]
  diffuse_colour : Nat := 0
  specular_colour : Nat := 0
  specular_value : Int := 0
  params0 : Nat := 0
  params1 : Nat := 0
  flags : Render_flags := {}
  rtype : Render_type := .normal
  type_swbf1 : Render_type_swbf1 := .normal
  vertex_lighting : Bool := false
  attached_light : List Nat := []
  deriving Repr, DecidableEq

/-- `Model_info` (handle_model.cpp, lines 72-77). The two boxes keep the
raw 24 bytes of their two 3-float vectors. -/
structure Model_info where
  vertex_box : List Nat := []
  visibility_box : List Nat := []
  face_count : Nat := 0
  deriving Repr, DecidableEq

/-- `msh::Model` (modelled from the spec's data model, restricted to the
fields the segment processors write). Attribute streams decoded from the
PS2 sibling chunks are kept in raw integer form: positions as `u16`
triples, normals as signed-byte triples (raw byte values), texture
coordinates as `i16` pairs (raw `u16` values), colours as packed `u32`,
skin as raw bone bytes. -/
structure Model where
  lod : Lod := .zero
  name : List Nat := []
  parent : List Nat := []
  material : Material := {}
  strips : List (List Nat) := []
  positions : List (List Nat) := []
  normals : List (List Nat) := []
  texture_coords : List (List Nat) := []
  colours : List Nat := []
  skin : List Nat := []
  bone_map : List Nat := []
  pretransformed : Bool := false
  deriving Repr, DecidableEq

/-- Modelled from the spec: `are_flags_set` (from the missing
`bit_flags.hpp`) tests that every bit of `flag` is set in `flags`; the
spec's dialect-1 `specular` flag (48 = bits 16+32 together) relies on the
all-bits-of-the-mask reading. -/
def are_flags_set (flags flag : Nat) : Bool := flags &&& flag = flag

/-- The byte values of the string "LOD1". -/
def strLOD1 : List Nat := [76, 79, 68, 49]

/-- The byte values of the string "LOD2". -/
def strLOD2 : List Nat := [76, 79, 68, 50]

/-- The byte values of the string "LOWD". -/
def strLOWD : List Nat := [76, 79, 87, 68]

/-- The suffix dispatch of `read_model_name` (handle_model.cpp, lines
94-113) on the already-read name. The source takes
`name_view.substr(name_view.length() - 4, 4)`: `length() - 4` is computed
in `std::size_t`, so for a name shorter than four characters it wraps to a
position beyond the end and `substr` throws `std::out_of_range`; this is
embedded as the `outOfRange` error. Otherwise the suffixes LOD1 / LOD2 /
LOWD select the LOD and cut the last four characters, and any other name
is returned whole at LOD zero. -/
def model_name_lod (name : List Nat) : Except Err (List Nat × Lod) :=
  if name.length < 4 then .error .outOfRange
  else
    let suffix := name.drop (name.length - 4)
    let unsuffixed_name := name.take (name.length - 4)
    if suffix = strLOD1 then .ok (unsuffixed_name, .one)
    else if suffix = strLOD2 then .ok (unsuffixed_name, .two)
    else if suffix = strLOWD then .ok (unsuffixed_name, .lowres)
    else .ok (name, .zero)

/-- `read_model_name` (handle_model.cpp, lines 94-113): read the name
string from the NAME chunk, then apply the LOD-suffix dispatch. -/
def read_model_name (name : Ucfb_reader) : Except Err (List Nat × Lod) := do
  let (name_view, _) ← read_string name false
  model_name_lod name_view

/-- `read_model_info` (handle_model.cpp, lines 115-140): only payload
sizes 72 and 68 are accepted (else "Unknow model info"); size 72 skips an
array of four `i32`, size 68 an array of three; then the vertex box (two
vec3), the visibility box (two vec3), one skipped `i32` and the face
count are read. -/
def read_model_info (info : Ucfb_reader) : Except Err Model_info := do
  if info.size ≠ 72 ∧ info.size ≠ 68 then .error .unknownModelInfo
  else do
    let (_, info) ← if info.size = 72 then read_bytes info 16 false
                    else read_bytes info 12 false
    let (vertex_box, info) ← read_bytes info 24 false
    let (vis_box, info) ← read_bytes info 24 false
    let (_, info) ← read_bytes info 4 false
    let (face_count, _) ← read_bytes info 4 false
    .ok { vertex_box := vertex_box, visibility_box := vis_box,
          face_count := leNat face_count }

/-- `read_texture_name` (handle_model.cpp, lines 142-151): read the slot
index (`u32`) and the texture name; store the name at that slot only when
the index is below the array size (four). -/
def read_texture_name (texture_name : Ucfb_reader) (out : List (List Nat)) :
    Except Err (List (List Nat)) := do
  let (index_bytes, texture_name) ← read_bytes texture_name 4 false
  let index := leNat index_bytes
  let (name, _) ← read_string texture_name false
  if index < out.length then .ok (out.set index name) else .ok out

/-- The `for` loop of `read_vertex_strip_ps2` (handle_model.cpp, lines
165-169) over the indices remaining after the two header indices: emit
indices until one with the `0x8000` bit set (or the end of the buffer)
stops the scan; also count how many were emitted. -/
def strip_scan : List Nat → List Nat × Nat
  | [] => ([], 0)
  | i :: is =>
    if i &&& 32768 = 32768 then ([], 0)
    else
      let (rest, count) := strip_scan is
      (i :: rest, count + 1)

/-- `read_vertex_strip_ps2` (handle_model.cpp, lines 153-172): with fewer
than two indices remaining at `pos` fail "Index buffer invalid"; else
emit the two header indices with their marker bit masked off
(`& ~0x8000` on `u16` is `& 0x7FFF`), advance by two, then emit verbatim
until the next marker index or the end. Returns the strip and the final
cursor. -/
def read_vertex_strip_ps2 (indices : List Nat) (pos : Nat) :
    Except Err (List Nat × Nat) :=
  if indices.length ≤ pos + 1 then .error .invalidIndexBuffer
  else
    let i0 := indices.getD pos 0 &&& 32767
    let i1 := indices.getD (pos + 1) 0 &&& 32767
    let (rest, count) := strip_scan (indices.drop (pos + 2))
    .ok (i0 :: i1 :: rest, pos + 2 + count)

/-- `read_index_buffer` (handle_model.cpp, lines 174-181): read the index
count (`u32`) and then that many `u16` indices. -/
def read_index_buffer (index_buffer : Ucfb_reader) : Except Err (List Nat) := do
  let (count_bytes, index_buffer) ← read_bytes index_buffer 4 false
  let (index_bytes, _) ← read_bytes index_buffer (2 * leNat count_bytes) false
  .ok (toU16s index_bytes)

/-- `read_strip_buffer` (handle_model.cpp, lines 183-190): read
`index_count` `u16` indices from the STRP chunk and return them as they
are. The strip-splitting decoder `read_vertex_strip_ps2` is not called
here (nor anywhere else in the sources). -/
def read_strip_buffer (strip_buffer : Ucfb_reader) (index_count : Nat) :
    Except Err (List Nat) := do
  let (index_bytes, _) ← read_bytes strip_buffer (2 * index_count) false
  .ok (toU16s index_bytes)

/-- `read_positions_buffer` (handle_model.cpp, lines 192-221), kept in raw
form: read `vertex_count` `u16[3]` records; the per-component linear
dequantization into the vertex box (float arithmetic) is not modelled, the
quantized triples are stored. -/
def read_positions_buffer (positions_buffer : Ucfb_reader)
    (vertex_count : Nat) : Except Err (List (List Nat)) := do
  let (bytes, _) ← read_bytes positions_buffer (6 * vertex_count) false
  .ok ((List.range vertex_count).map fun i => toU16s ((bytes.drop (6 * i)).take 6))

/-- `read_normals_buffer` (handle_model.cpp, lines 223-241), kept in raw
form: read `vertex_count` `i8[3]` records; the division by 127 into floats
is not modelled, the raw byte triples are stored. -/
def read_normals_buffer (normals_buffer : Ucfb_reader) (vertex_count : Nat) :
    Except Err (List (List Nat)) := do
  let (bytes, _) ← read_bytes normals_buffer (3 * vertex_count) false
  .ok ((List.range vertex_count).map fun i => (bytes.drop (3 * i)).take 3)

/-- `read_uv_buffer` (handle_model.cpp, lines 243-266), kept in raw form:
read `vertex_count` `i16[2]` records; the scale by 1/2048 and the V-flip
(float arithmetic) are not modelled, the raw `u16` pairs are stored. -/
def read_uv_buffer (uv_buffer : Ucfb_reader) (vertex_count : Nat) :
    Except Err (List (List Nat)) := do
  let (bytes, _) ← read_bytes uv_buffer (4 * vertex_count) false
  .ok ((List.range vertex_count).map fun i => toU16s ((bytes.drop (4 * i)).take 4))

/-- `read_skin_buffer` (handle_model.cpp, lines 268-282), kept in raw
form: read `vertex_count` bone bytes; each becomes one hard-skin entry. -/
def read_skin_buffer (bone_buffer : Ucfb_reader) (vertex_count : Nat) :
    Except Err (List Nat) := do
  let (bytes, _) ← read_bytes bone_buffer vertex_count false
  .ok bytes

/-- `read_colour_buffer` (handle_model.cpp, lines 284-299), kept in raw
form: read `vertex_count` packed `u32` colours; the snorm unpack and the
BGRA swizzle (float arithmetic) are not modelled. -/
def read_colour_buffer (colour_buffer : Ucfb_reader) (vertex_count : Nat) :
    Except Err (List Nat) := do
  let (bytes, _) ← read_bytes colour_buffer (4 * vertex_count) false
  .ok ((List.range vertex_count).map fun i => leNat ((bytes.drop (4 * i)).take 4))

/-- `read_bone_map` (handle_model.cpp, lines 301-312): read the count
(`u32`) and then that many bone bytes. -/
def read_bone_map (bone_map : Ucfb_reader) : Except Err (List Nat) := do
  let (count_bytes, bone_map) ← read_bytes bone_map 4 false
  let (bones, _) ← read_bytes bone_map (leNat count_bytes) false
  .ok bones

/-- Little-endian interpretation of four bytes as a signed (two's
complement) 32-bit integer. -/
def leInt32 (bs : List Nat) : Int :=
  let n := leNat bs
  if n < 2147483648 then (n : Int) else (n : Int) - 4294967296

/-- `read_material_swbf1` (handle_model.cpp, lines 314-361): read the
dialect-1 flag word, then apply its bits in source order, conditionally
reading the specular value/colour and the detail/scroll parameter pairs
(whose float range conversion is kept as the raw words read). -/
def read_material_swbf1 (material : Ucfb_reader) (out : Material) :
    Except Err Material := do
  let (flag_bytes, material) ← read_bytes material 4 false
  let flags := leNat flag_bytes
  let out := if are_flags_set flags 2 then
      { out with flags := { out.flags with hardedged := true } } else out
  let out := if are_flags_set flags 4 then
      { out with flags := { out.flags with transparent := true } } else out
  let (material, out) ← if are_flags_set flags 48 then do
      let (value_bytes, material) ← read_bytes material 4 false
      let (colour_bytes, material) ← read_bytes material 4 false
      Except.ok (material,
        { out with type_swbf1 := .specular,
                   specular_value := leInt32 value_bytes,
                   specular_colour := leNat colour_bytes })
    else Except.ok (material, out)
  let out := if are_flags_set flags 128 then
      { out with flags := { out.flags with additive := true } } else out
  let out := if are_flags_set flags 256 then
      { out with type_swbf1 := .glow } else out
  let (material, out) ← if are_flags_set flags 512 then do
      let (p0_bytes, material) ← read_bytes material 4 false
      let (p1_bytes, material) ← read_bytes material 4 false
      Except.ok (material,
        { out with type_swbf1 := .detail,
                   params0 := leNat p0_bytes, params1 := leNat p1_bytes })
    else Except.ok (material, out)
  let (_, out) ← if are_flags_set flags 1024 then do
      let (p0_bytes, material) ← read_bytes material 4 false
      let (p1_bytes, material) ← read_bytes material 4 false
      Except.ok (material,
        { out with type_swbf1 := .scroll,
                   params0 := leNat p0_bytes, params1 := leNat p1_bytes })
    else Except.ok (material, out)
  let out := if are_flags_set flags 4096 then
      { out with type_swbf1 := .reflection } else out
  let out := if are_flags_set flags 8192 then
      { out with type_swbf1 := .camouflage } else out
  let out := if are_flags_set flags 16384 then
      { out with type_swbf1 := .refraction } else out
  .ok out

/-- The pure tail of the dialect-2 branch of `read_material`
(handle_model.cpp, lines 373-425): given the fields of the 24-byte
`Material_info` record and the attached-light string already read, write
the colour/param fields and apply the flag bits in source order. The
transparent render flag is set only when the doublesided bit is clear. -/
def apply_material_swbf2 (flags diffuse_colour specular_colour
    specular_intensity params0 params1 : Nat) (attached_light : List Nat)
    (out : Material) : Material :=
  let out := { out with
    diffuse_colour := diffuse_colour,
    specular_colour := specular_colour,
    specular_value := (specular_intensity : Int),
    params0 := params0 % 256,
    params1 := params1 % 256,
    vertex_lighting := are_flags_set flags 512 }
  let out := if are_flags_set flags 2 then
      { out with flags := { out.flags with hardedged := true } } else out
  let out := if are_flags_set flags 4 && !are_flags_set flags 65536 then
      { out with flags := { out.flags with transparent := true } } else out
  let out := if are_flags_set flags 16 then
      { out with flags := { out.flags with glow := true } } else out
  let out := if are_flags_set flags 32 then
      { out with rtype := .bumpmap } else out
  let out := if are_flags_set flags 64 then
      { out with flags := { out.flags with additive := true } } else out
  let out := if are_flags_set flags 128 then
      { out with flags := { out.flags with specular := true } } else out
  let out := if are_flags_set flags 256 then
      { out with rtype := .env_map } else out
  let out := if are_flags_set flags 2048 then
      { out with rtype := .wireframe } else out
  let out := if are_flags_set flags 65536 then
      { out with flags := { out.flags with doublesided := true } } else out
  let out := if are_flags_set flags 16777216 then
      { out with rtype := .scrolling } else out
  let out := if are_flags_set flags 33554432 then
      { out with rtype := .energy } else out
  let out := if are_flags_set flags 67108864 then
      { out with rtype := .animated } else out
  let out := if are_flags_set flags 134217728 then
      { out with attached_light := attached_light } else out
  out

/-- The dialect-2 branch of `read_material` (handle_model.cpp, lines
373-425): read the fixed 24-byte `Material_info` record, then the
unaligned attached-light string (always present), then apply the flag
bits. -/
def read_material_swbf2 (material : Ucfb_reader) (out : Material) :
    Except Err Material := do
  let (info_bytes, material) ← read_bytes material 24 false
  let (attached_light, _) ← read_string material true
  .ok (apply_material_swbf2 (leNat (info_bytes.take 4))
        (leNat ((info_bytes.drop 4).take 4))
        (leNat ((info_bytes.drop 8).take 4))
        (leNat ((info_bytes.drop 12).take 4))
        (leNat ((info_bytes.drop 16).take 4))
        (leNat ((info_bytes.drop 20).take 4))
        attached_light out)

/-- `read_material` (handle_model.cpp, lines 363-426): dialect dispatch on
the chunk size — smaller than the 24-byte `Material_info` record means
dialect 1 (SWBF1), otherwise dialect 2. -/
def read_material (material : Ucfb_reader) (out : Material) :
    Except Err Material :=
  if material.size < 24 then read_material_swbf1 material out
  else read_material_swbf2 material out

/-- `read_material_name` (handle_model.cpp, lines 428-434): the MNAM
string names both the material and the model. -/
def read_material_name (mnam : Ucfb_reader) (out : Model) :
    Except Err Model := do
  let (name, _) ← read_string mnam false
  .ok { out with material := { out.material with name := name }, name := name }

/-- The dispatch body of the `while (segment)` loop of
`process_segment_ps2` (handle_model.cpp, lines 550-599) for one child
chunk already read from the segment: recognized magic numbers update the
model, any other magic number is skipped without effect. -/
def process_child_ps2 (child : Ucfb_reader) (model : Model)
    (vertex_count index_count : Nat) (vertex_box : List Nat) :
    Except Err Model := do
  if child.mn = MTRL_mn then do
    let material ← read_material child model.material
    .ok { model with material := material }
  else if child.mn = RTYP_mn then do
    let (type_bytes, _) ← read_bytes child 4 false
    .ok { model with material :=
            { model.material with rtype := .code (leNat type_bytes) } }
  else if child.mn = MNAM_mn then read_material_name child model
  else if child.mn = TNAM_mn then do
    let textures ← read_texture_name child model.material.textures
    .ok { model with material := { model.material with textures := textures } }
  else if child.mn = STRP_mn then do
    let strip ← read_strip_buffer child index_count
    .ok { model with strips := model.strips ++ [strip] }
  else if child.mn = POSI_mn then do
    let _ := vertex_box
    let positions ← read_positions_buffer child vertex_count
    .ok { model with positions := positions }
  else if child.mn = NORM_mn then do
    let normals ← read_normals_buffer child vertex_count
    .ok { model with normals := normals }
  else if child.mn = TEX0_mn then do
    let texture_coords ← read_uv_buffer child vertex_count
    .ok { model with texture_coords := texture_coords }
  else if child.mn = COL0_mn then do
    let colours ← read_colour_buffer child vertex_count
    .ok { model with colours := colours }
  else if child.mn = BMAP_mn then do
    let bone_map ← read_bone_map child
    .ok { model with bone_map := bone_map, pretransformed := true }
  else if child.mn = BONE_mn then do
    let skin ← read_skin_buffer child vertex_count
    .ok { model with skin := skin }
  else if child.mn = BNAM_mn then do
    let (parent, _) ← read_string child false
    .ok { model with parent := parent }
  else .ok model

/-- The `while (segment)` loop of `process_segment_ps2` (handle_model.cpp,
lines 550-599), with an explicit fuel argument bounding the number of
iterations. Every successful `read_child` strictly advances the head, so
`size - head + 1` iterations can never be exceeded; the fuel-exhaustion
branch is unreachable from the `process_segment_ps2` entry point below. -/
def segm_loop_ps2 : Nat → Ucfb_reader → Model → Nat → Nat → List Nat →
    Except Err Model
  | 0, _, _, _, _, _ => .error .boundsViolation
  | fuel + 1, segment, model, vertex_count, index_count, vertex_box =>
    if has_remaining segment then
      match read_child segment false with
      | .error e => .error e
      | .ok (child, segment) =>
        match process_child_ps2 child model vertex_count index_count vertex_box with
        | .error e => .error e
        | .ok model =>
          segm_loop_ps2 fuel segment model vertex_count index_count vertex_box
    else .ok model

/-- `process_segment_ps2` (handle_model.cpp, lines 540-602): read the
leading strict INFO child for the vertex and index counts, then walk the
remaining children; the finished model (with the given LOD) is what the
source hands to `builder.add_model`. -/
def process_segment_ps2 (segment : Ucfb_reader) (lod : Lod)
    (vertex_box : List Nat) : Except Err Model := do
  let (info, segment) ← read_child_strict segment INFO_mn false
  let (vc_bytes, info) ← read_bytes info 4 false
  let (ic_bytes, _) ← read_bytes info 4 false
  segm_loop_ps2 (segment.size + 1) segment { lod := lod }
    (leNat vc_bytes) (leNat ic_bytes) vertex_box

/-- `write_bracketed_str` (handle_object.cpp, lines 16-21): append
`[what]` and two newlines. -/
def write_bracketed_str (what to_buf : List Nat) : List Nat :=
  to_buf ++ [91] ++ what ++ [93, 10, 10]

/-- `write_property` (handle_object.cpp, lines 23-30): append
`name = "value"` and a newline. -/
def write_property (prop_value : List Nat × List Nat) (to_buf : List Nat) :
    List Nat :=
  to_buf ++ prop_value.1 ++ [32, 61, 32, 34] ++ prop_value.2 ++ [34, 10]

/-- The `while (object)` loop of `get_properties` (handle_object.cpp,
lines 32-48), with an explicit fuel argument bounding the number of
iterations: while the reader is truthy, read a strict PROP child, its
`u32` hash and its string value. Every successful child read strictly
advances the head, so `size - head + 1` iterations can never be exceeded;
the fuel-exhaustion branch is unreachable from the `get_properties`
entry point below. -/
def get_propertiesF : Nat → Ucfb_reader → Except Err (List (Nat × List Nat))
  | 0, _ => .error .boundsViolation
  | fuel + 1, object =>
    if has_remaining object then
      match read_child_strict object PROP_mn false with
      | .error e => .error e
      | .ok (property, object) =>
        match read_bytes property 4 false with
        | .error e => .error e
        | .ok (hash_bytes, property) =>
          match read_string property false with
          | .error e => .error e
          | .ok (value, _) =>
            match get_propertiesF fuel object with
            | .error e => .error e
            | .ok rest => .ok ((leNat hash_bytes, value) :: rest)
    else .ok []

/-- `get_properties` (handle_object.cpp, lines 32-48): collect every
remaining child as a strict PROP `{hash, value}` pair. -/
def get_properties (object : Ucfb_reader) : Except Err (List (Nat × List Nat)) :=
  get_propertiesF (object.size + 1) object

/-- `find_geometry_name` (handle_object.cpp, lines 50-63): the first
property whose hash is 0x47c86b4a names the geometry; ".msh" is
appended. -/
def find_geometry_name (properties : List (Nat × List Nat)) :
    Option (List Nat) :=
  match properties.find? (fun prop => prop.1 = 0x47c86b4a) with
  | some result => some (result.2 ++ [46, 109, 115, 104])
  | none => none

/-- The textual artifact `handle_object` hands to the file saver: the file
contents and the saver's directory tag, base name and extension
arguments. -/
structure SavedFile where
  contents : List Nat
  directory : List Nat
  base_name : List Nat
  extension : List Nat
  deriving Repr, DecidableEq

/-- `handle_object` (handle_object.cpp, lines 66-94): write the `[type]`
header, the strict BASE child's string as ClassLabel, take the strict TYPE
child's string as the file name, collect the PROP properties, write
GeometryName when present, then the `[Properties]` section with the
reverse-FNV name of each hash. The FNV lookup table is not among the given
sources, so the lookup is a parameter. -/
def handle_object (object : Ucfb_reader) (lookup_fnv_hash : Nat → List Nat)
    (type_str : List Nat) : Except Err SavedFile := do
  let file_buffer := write_bracketed_str type_str []
  let (base, object) ← read_child_strict object BASE_mn false
  let (class_name, _) ← read_string base false
  let file_buffer := write_property ([67, 108, 97, 115, 115, 76, 97, 98, 101, 108],
    class_name) file_buffer
  let (type_child, object) ← read_child_strict object TYPE_mn false
  let (odf_name, _) ← read_string type_child false
  let properties ← get_properties object
  let geom_name := find_geometry_name properties
  let file_buffer := match geom_name with
    | some name => write_property ([71, 101, 111, 109, 101, 116, 114, 121,
        78, 97, 109, 101], name) file_buffer
    | none => file_buffer
  let file_buffer := file_buffer ++ [10]
  let file_buffer := write_bracketed_str [80, 114, 111, 112, 101, 114, 116,
    105, 101, 115] file_buffer
  let file_buffer := properties.foldl
    (fun buf property => write_property (lookup_fnv_hash property.1, property.2) buf)
    file_buffer
  .ok { contents := file_buffer, directory := [111, 100, 102],
        base_name := odf_name, extension := [46, 111, 100, 102] }

theorem align_head_eq (r : Ucfb_reader) :
    align_head r = { r with head := align4 r.head } := by
  unfold align_head align4
  split
  · rfl
  · rfl

theorem self_le_align4 (n : Nat) : n ≤ align4 n := by
  unfold align4
  split <;> omega

theorem align4_lt_add_four (n : Nat) : align4 n < n + 4 := by
  unfold align4
  split <;> omega

theorem align4_mono {m n : Nat} (h : m ≤ n) : align4 m ≤ align4 n := by
  unfold align4
  split <;> split <;> omega

theorem read_bytes_eq (r : Ucfb_reader) (n : Nat) (ua : Bool) :
    read_bytes r n ua =
      if r.size < r.head + n then .error .boundsViolation
      else .ok ((r.data.drop r.head).take n,
        if ua then { r with head := r.head + n }
        else align_head { r with head := r.head + n }) := by
  unfold read_bytes check_head
  by_cases h : r.size < r.head + n <;> simp [h, Bind.bind, Except.bind]

theorem read_string_eq (r : Ucfb_reader) (ua : Bool) :
    read_string r ua =
      if r.size < r.head +
          (cstring_length (r.data.drop r.head) (r.size - r.head) + 1) then
        .error .boundsViolation
      else .ok ((r.data.drop r.head).take
          (cstring_length (r.data.drop r.head) (r.size - r.head)),
        if ua then { r with head := r.head +
            (cstring_length (r.data.drop r.head) (r.size - r.head) + 1) }
        else align_head { r with head := r.head +
            (cstring_length (r.data.drop r.head) (r.size - r.head) + 1) }) := by
  unfold read_string check_head
  by_cases h : r.size < r.head +
      (cstring_length (r.data.drop r.head) (r.size - r.head) + 1) <;>
    simp [h, Bind.bind, Except.bind]

theorem read_child_eq (r : Ucfb_reader) (ua : Bool) :
    read_child r ua =
      if r.head + 8 + child_size r ≤ r.size then
        .ok ({ mn := child_magic r, size := child_size r,
               data := (r.data.drop (r.head + 8)).take (child_size r), head := 0 },
          if ua then { r with head := r.head + 8 + child_size r }
          else align_head { r with head := r.head + 8 + child_size r })
      else .error .boundsViolation := by
  unfold read_child
  split
  · next h1 => rw [if_neg (by omega)]
  · next h1 =>
    split
    · next h2 => rw [if_neg (by omega)]
    · next h2 => rw [if_pos (by omega)]

theorem read_child_ok_progress {r : Ucfb_reader} {ua : Bool}
    {c r2 : Ucfb_reader} (h : read_child r ua = .ok (c, r2)) :
    r2.size = r.size ∧ r2.data = r.data ∧ r2.mn = r.mn ∧
      r.head + 8 + child_size r ≤ r.size ∧ r.head + 8 + child_size r ≤ r2.head ∧
      r2.head ≤ align4 (r.head + 8 + child_size r) ∧
      c.mn = child_magic r ∧ c.size = child_size r ∧ c.head = 0 := by
  rw [read_child_eq] at h
  split at h
  · next hle =>
    cases h
    cases ua
    · rw [if_neg (by decide : ¬((false : Bool) = true)), align_head_eq]
      exact ⟨rfl, rfl, rfl, hle, self_le_align4 _, le_refl _, rfl, rfl, rfl⟩
    · rw [if_pos rfl]
      exact ⟨rfl, rfl, rfl, hle, le_refl _, self_le_align4 _, rfl, rfl, rfl⟩
  · cases h

theorem read_child_strict_ok_iff {r : Ucfb_reader} {T : Nat} {ua : Bool}
    {c r2 : Ucfb_reader} :
    read_child_strict r T ua = .ok (c, r2) ↔
      read_child r ua = .ok (c, r2) ∧ c.mn = T := by
  unfold read_child_strict
  cases h : read_child r ua with
  | error e =>
    simp only [Bind.bind, Except.bind]
    constructor
    · intro he
      simp at he
    · rintro ⟨he, _⟩
      simp at he
  | ok pair =>
    obtain ⟨c1, r21⟩ := pair
    simp only [Bind.bind, Except.bind]
    by_cases hm : c1.mn = T
    · rw [if_pos hm]
      constructor
      · intro he
        injection he with he'
        injection he' with he1 he2
        subst he1
        subst he2
        exact ⟨rfl, hm⟩
      · rintro ⟨he, _⟩
        injection he with he'
        injection he' with he1 he2
        subst he1
        subst he2
        rfl
    · rw [if_neg hm]
      constructor
      · intro he
        simp at he
      · rintro ⟨he, hT⟩
        injection he with he'
        injection he' with he1 he2
        subst he1
        exact absurd hT hm

theorem read_child_strict_err {r : Ucfb_reader} {T : Nat} {ua : Bool}
    {c r2 : Ucfb_reader} (h : read_child r ua = .ok (c, r2)) (hm : c.mn ≠ T) :
    read_child_strict r T ua = .error .unexpectedMagic := by
  unfold read_child_strict
  rw [h]
  simp only [Bind.bind, Except.bind]
  rw [if_neg hm]

instance {ε α : Type} [DecidableEq ε] [DecidableEq α] :
    DecidableEq (Except ε α) := fun x y =>
  match x, y with
  | .error a, .error b =>
    if h : a = b then .isTrue (by rw [h]) else
      .isFalse (fun he => h (by injection he))
  | .ok a, .ok b =>
    if h : a = b then .isTrue (by rw [h]) else
      .isFalse (fun he => h (by injection he))
  | .error _, .ok _ => .isFalse (fun he => Except.noConfusion he)
  | .ok _, .error _ => .isFalse (fun he => Except.noConfusion he)

/-- Claim C1, counterexample: on a chunk of size 1 the aligned 1-byte read
succeeds and leaves the head at 4 — `align_head` rounds `1` up to `4` and
never clamps — so the head exceeds the declared size, where the claim
demands `min (align4 1) 1 = 1`. -/
theorem c1_counterexample :
    read_bytes { mn := 0, size := 1, data := [7], head := 0 } 1 false =
      .ok ([7], { mn := 0, size := 1, data := [7], head := 4 }) ∧
    min (align4 (0 + 1)) 1 = 1 ∧ ¬((4 : Nat) ≤ 1) := by
  refine ⟨by decide, by decide, by decide⟩

/-- Claim C1 (amended): for every successful aligned read — trivial and
array reads and consume via `read_bytes`, and `read_string` — ending at
offset `e`, the post-read head equals `align4 e` with no clamping; the
head therefore never exceeds `align4 size`, but it can exceed `size`
itself (by at most the alignment padding) when `size` is not a multiple
of four. -/
theorem c1_aligned_read_head (r : Ucfb_reader) (n : Nat) :
    (∀ bs r2, read_bytes r n false = .ok (bs, r2) →
      r2.head = align4 (r.head + n) ∧ r2.head ≤ align4 r.size) ∧
    (∀ r2, consume r n false = .ok r2 →
      r2.head = align4 (r.head + n) ∧ r2.head ≤ align4 r.size) ∧
    (∀ bs r2, read_string r false = .ok (bs, r2) →
      r2.head = align4 (r.head +
        (cstring_length (r.data.drop r.head) (r.size - r.head) + 1)) ∧
      r2.head ≤ align4 r.size) := by
  refine ⟨?_, ?_, ?_⟩
  · intro bs r2 h
    rw [read_bytes_eq] at h
    split at h
    · cases h
    · next hle =>
      rw [if_neg (by decide : ¬((false : Bool) = true)), align_head_eq] at h
      cases h
      exact ⟨rfl, align4_mono (show r.head + n ≤ r.size by omega)⟩
  · intro r2 h
    unfold consume at h
    rw [read_bytes_eq] at h
    split at h
    · cases h
    · next hle =>
      rw [if_neg (by decide : ¬((false : Bool) = true)), align_head_eq] at h
      cases h
      exact ⟨rfl, align4_mono (show r.head + n ≤ r.size by omega)⟩
  · intro bs r2 h
    rw [read_string_eq] at h
    split at h
    · cases h
    · next hle =>
      rw [if_neg (by decide : ¬((false : Bool) = true)), align_head_eq] at h
      cases h
      refine ⟨rfl, align4_mono ?_⟩
      have hle2 : r.head +
          (cstring_length (r.data.drop r.head) (r.size - r.head) + 1) ≤ r.size := by
        omega
      exact hle2

/-- A concrete eight-byte chunk used to witness claim C1. -/
def c1r : Ucfb_reader :=
  { mn := 0, size := 8, data := [1, 2, 3, 4, 0, 0, 0, 0], head := 0 }

/-- Claim C1, witness: the amended theorem applied to concrete aligned
reads — a 1-byte trivial read, a 1-byte consume and a four-character
string read — on the eight-byte chunk `c1r`. -/
theorem c1_witness :
    ((4 : Nat) = align4 (0 + 1) ∧ (4 : Nat) ≤ align4 8) ∧
    ((4 : Nat) = align4 (0 + 1) ∧ (4 : Nat) ≤ align4 8) ∧
    ((8 : Nat) = align4 (0 + (4 + 1)) ∧ (8 : Nat) ≤ align4 8) :=
  ⟨(c1_aligned_read_head c1r 1).1 [1] { c1r with head := 4 } (by decide),
   (c1_aligned_read_head c1r 1).2.1 { c1r with head := 4 } (by decide),
   (c1_aligned_read_head c1r 1).2.2 [1, 2, 3, 4] { c1r with head := 8 } (by decide)⟩

/-- Claim C6: a strict child read of expected tag `T` is atomic — exactly
one of: (a) the child header fits, the chunk at the head has magic `T`,
the read succeeds with a strict sub-reader whose magic is `T` and the
parent head advances past the child's padded footprint
(`align_head` of head + 8 + child size); (b) the child fits but its magic
differs from `T`, and the read fails with the unexpected-magic error; (c)
the child does not fit the remaining payload and the read fails with a
bounds violation. In the `Except` embedding a failing read yields no
successor state, which is precisely the source's contract that the parent
head is left unchanged on failure. -/
theorem c6_read_child_strict_atomic (r : Ucfb_reader) (T : Nat) :
    (r.head + 8 + child_size r ≤ r.size ∧ child_magic r = T ∧
      ∃ c, read_child_strict r T false =
          .ok (c, align_head { r with head := r.head + 8 + child_size r }) ∧
        c.mn = T ∧ c.size = child_size r ∧ c.head = 0) ∨
    (r.head + 8 + child_size r ≤ r.size ∧ child_magic r ≠ T ∧
      read_child_strict r T false = .error .unexpectedMagic) ∨
    (r.size < r.head + 8 + child_size r ∧
      read_child_strict r T false = .error .boundsViolation) := by
  by_cases hb : r.head + 8 + child_size r ≤ r.size
  · have hc : read_child r false =
        .ok ({ mn := child_magic r, size := child_size r,
               data := (r.data.drop (r.head + 8)).take (child_size r), head := 0 },
          align_head { r with head := r.head + 8 + child_size r }) := by
      rw [read_child_eq, if_pos hb, if_neg (by decide : ¬((false : Bool) = true))]
    by_cases hm : child_magic r = T
    · exact Or.inl ⟨hb, hm,
        ⟨{ mn := child_magic r, size := child_size r,
           data := (r.data.drop (r.head + 8)).take (child_size r), head := 0 },
         read_child_strict_ok_iff.2 ⟨hc, hm⟩, hm, rfl, rfl⟩⟩
    · exact Or.inr (Or.inl ⟨hb, hm, read_child_strict_err hc hm⟩)
  · refine Or.inr (Or.inr ⟨by omega, ?_⟩)
    unfold read_child_strict
    rw [read_child_eq, if_neg hb]
    rfl

/-- Claim C7: reading a model INFO chunk (from its start) succeeds exactly
when the payload size is 68 or 72 bytes; any other size fails with the
unknown-model-info error before any field is read. -/
theorem c7_read_model_info (info : Ucfb_reader) (h0 : info.head = 0) :
    ((info.size = 68 ∨ info.size = 72) → ∃ v, read_model_info info = .ok v) ∧
    (info.size ≠ 68 → info.size ≠ 72 →
      read_model_info info = .error .unknownModelInfo) := by
  constructor
  · rintro (hs | hs) <;>
      simp [read_model_info, read_bytes_eq, align_head_eq, align4, hs, h0,
        Bind.bind, Except.bind]
  · intro h68 h72
    unfold read_model_info
    rw [if_pos ⟨h72, h68⟩]

/-- A concrete all-zero INFO chunk of size `n`, used to witness C7. -/
def mkInfoChunk (n : Nat) : Ucfb_reader :=
  { mn := INFO_mn, size := n, data := List.replicate n 0, head := 0 }

/-- Claim C7, witness: sizes 67, 69, 71 and 73 fail with the
unknown-model-info error while 68 and 72 succeed, on concrete all-zero
INFO chunks. -/
theorem c7_witness :
    (∃ v, read_model_info (mkInfoChunk 68) = .ok v) ∧
    (∃ v, read_model_info (mkInfoChunk 72) = .ok v) ∧
    read_model_info (mkInfoChunk 67) = .error .unknownModelInfo ∧
    read_model_info (mkInfoChunk 69) = .error .unknownModelInfo ∧
    read_model_info (mkInfoChunk 71) = .error .unknownModelInfo ∧
    read_model_info (mkInfoChunk 73) = .error .unknownModelInfo :=
  ⟨(c7_read_model_info _ rfl).1 (Or.inl rfl),
   (c7_read_model_info _ rfl).1 (Or.inr rfl),
   (c7_read_model_info _ rfl).2 (by decide) (by decide),
   (c7_read_model_info _ rfl).2 (by decide) (by decide),
   (c7_read_model_info _ rfl).2 (by decide) (by decide),
   (c7_read_model_info _ rfl).2 (by decide) (by decide)⟩

theorem getD_drop (l : List Nat) (n j : Nat) :
    (l.drop n).getD j 0 = l.getD (n + j) 0 := by
  induction n generalizing l with
  | zero => simp
  | succ n ih =>
    cases l with
    | nil => simp
    | cons a l =>
      rw [List.drop_succ_cons, ih]
      have : n + 1 + j = (n + j) + 1 := by omega
      rw [this, List.getD_cons_succ]

theorem strip_scan_spec (l : List Nat) :
    (strip_scan l).1 = l.take (strip_scan l).2 ∧ (strip_scan l).2 ≤ l.length ∧
    (∀ j, j < (strip_scan l).2 → l.getD j 0 &&& 32768 ≠ 32768) ∧
    ((strip_scan l).2 = l.length ∨ l.getD (strip_scan l).2 0 &&& 32768 = 32768) := by
  induction l with
  | nil =>
    refine ⟨rfl, le_refl _, ?_, Or.inl rfl⟩
    intro j hj
    simp [strip_scan] at hj
  | cons i is ih =>
    by_cases hm : i &&& 32768 = 32768
    · have he : strip_scan (i :: is) = ([], 0) := by
        unfold strip_scan
        rw [if_pos hm]
      rw [he]
      exact ⟨rfl, by simp, fun j hj => absurd hj (by omega), Or.inr (by simpa using hm)⟩
    · rcases hsc : strip_scan is with ⟨rest, count⟩
      have he : strip_scan (i :: is) = (i :: rest, count + 1) := by
        unfold strip_scan
        rw [if_neg hm, hsc]
      rw [hsc] at ih
      dsimp at ih
      rw [he]
      dsimp
      refine ⟨?_, by simp; omega, ?_, ?_⟩
      · rw [ih.1]
      · intro j hj
        cases j with
        | zero => simpa using hm
        | succ j =>
          rw [List.getD_cons_succ]
          exact ih.2.2.1 j (by omega)
      · rcases ih.2.2.2 with hend | hmark
        · exact Or.inl (by simp [hend])
        · exact Or.inr (by simpa using hmark)

/-- Claim C8: decoding a single PS2 vertex strip at cursor `pos` — with
fewer than two indices remaining the invalid-index-buffer error is
raised; otherwise the two header indices are emitted with their `0x8000`
marker masked off, and the following indices are emitted verbatim up to
(excluding) the stopping position, which is the next index carrying the
`0x8000` bit or the end of the buffer. -/
theorem c8_read_vertex_strip_ps2 (indices : List Nat) (pos : Nat) :
    (indices.length ≤ pos + 1 →
      read_vertex_strip_ps2 indices pos = .error .invalidIndexBuffer) ∧
    (pos + 1 < indices.length → ∃ stop,
      read_vertex_strip_ps2 indices pos =
        .ok ((indices.getD pos 0 &&& 32767) :: (indices.getD (pos + 1) 0 &&& 32767) ::
          (indices.drop (pos + 2)).take (stop - (pos + 2)), stop) ∧
      pos + 2 ≤ stop ∧ stop ≤ indices.length ∧
      (∀ j, pos + 2 ≤ j → j < stop → indices.getD j 0 &&& 32768 ≠ 32768) ∧
      (stop = indices.length ∨ indices.getD stop 0 &&& 32768 = 32768)) := by
  constructor
  · intro h
    unfold read_vertex_strip_ps2
    rw [if_pos h]
  · intro h
    have hspec := strip_scan_spec (indices.drop (pos + 2))
    rcases hsc : strip_scan (indices.drop (pos + 2)) with ⟨rest, count⟩
    rw [hsc] at hspec
    dsimp at hspec
    have hlen : (indices.drop (pos + 2)).length = indices.length - (pos + 2) := by
      simp
    refine ⟨pos + 2 + count, ?_, by omega, by omega, ?_, ?_⟩
    · unfold read_vertex_strip_ps2
      rw [if_neg (by omega), hsc]
      dsimp
      have harg : pos + 2 + count - (pos + 2) = count := by omega
      rw [harg, ← hspec.1]
    · intro j hj1 hj2
      have hj : j - (pos + 2) < count := by omega
      have := hspec.2.2.1 (j - (pos + 2)) hj
      rw [getD_drop] at this
      have harg : pos + 2 + (j - (pos + 2)) = j := by omega
      rwa [harg] at this
    · rcases hspec.2.2.2 with hend | hmark
      · exact Or.inl (by omega)
      · rw [getD_drop] at hmark
        exact Or.inr hmark

/-- Claim C8, witness: the theorem applied to the one-index buffer `[5]`
(too short: invalid-index-buffer) and to the buffer
`[0x8000, 0x8001, 2, 3, 4]` at cursor 0, whose single strip decodes to
`[0, 1, 2, 3, 4]` stopping at the end of the buffer. -/
theorem c8_witness :
    read_vertex_strip_ps2 [5] 0 = .error .invalidIndexBuffer ∧
    ∃ stop,
      read_vertex_strip_ps2 [32768, 32769, 2, 3, 4] 0 =
        .ok (0 :: 1 :: [2, 3, 4].take (stop - 2), stop) ∧
      2 ≤ stop ∧ stop ≤ 5 ∧
      (∀ j, 2 ≤ j → j < stop → [32768, 32769, 2, 3, 4].getD j 0 &&& 32768 ≠ 32768) ∧
      (stop = 5 ∨ [32768, 32769, 2, 3, 4].getD stop 0 &&& 32768 = 32768) :=
  ⟨(c8_read_vertex_strip_ps2 [5] 0).1 (by decide),
   (c8_read_vertex_strip_ps2 [32768, 32769, 2, 3, 4] 0).2 (by decide)⟩

theorem leNat_le4 (n : Nat) (h : n < 4294967296) : leNat (le4 n) = n := by
  simp only [le4, leNat]
  omega

theorem cstring_length_terminated (name rest : List Nat) (m : Nat)
    (hname : ∀ b ∈ name, b % 256 ≠ 0) (hm : name.length < m) :
    cstring_length (name ++ 0 :: rest) m = name.length := by
  induction name generalizing m with
  | nil =>
    cases m with
    | zero => omega
    | succ m =>
      unfold cstring_length
      simp
  | cons b bs ih =>
    cases m with
    | zero => simp at hm
    | succ m =>
      show (if b % 256 = 0 then 0 else 1 + cstring_length (bs ++ 0 :: rest) m) =
        (b :: bs).length
      rw [if_neg (hname b (by simp))]
      rw [ih m (fun x hx => hname x (List.mem_cons_of_mem b hx))
        (by simp at hm; omega)]
      simp
      omega

/-- The payload of a TNAM chunk holding texture slot `slot` and the
NUL-terminated texture name `name`, as a fresh reader. -/
def mkTnamChunk (slot : Nat) (name : List Nat) : Ucfb_reader :=
  { mn := TNAM_mn, size := 4 + name.length + 1,
    data := le4 slot ++ name ++ 0 :: [], head := 0 }

theorem le4_length (n : Nat) : (le4 n).length = 4 := rfl

/-- Claim C9: for every TNAM child whose payload is a `u32` slot followed
by a NUL-terminated name, `read_texture_name` succeeds; when the slot is
below four the name is written into that texture slot, and when the slot
is four or more the texture array is returned completely unchanged (the
function receives only the texture array, so no other material field can
be touched). -/
theorem c9_read_texture_name (slot : Nat) (name : List Nat)
    (textures : List (List Nat)) (hslot : slot < 4294967296)
    (hname : ∀ b ∈ name, b % 256 ≠ 0) (htex : textures.length = 4) :
    read_texture_name (mkTnamChunk slot name) textures =
      .ok (if slot < 4 then textures.set slot name else textures) := by
  have h1 : read_bytes (mkTnamChunk slot name) 4 false =
      .ok (le4 slot, { mkTnamChunk slot name with head := 4 }) := by
    rw [read_bytes_eq, if_neg (by dsimp [mkTnamChunk]; omega), align_head_eq]
    rw [if_neg (by decide : ¬((false : Bool) = true))]
    dsimp [mkTnamChunk]
    rw [List.append_assoc, List.take_left' (le4_length slot),
      (by decide : align4 4 = 4)]
  have h2 : read_string { mkTnamChunk slot name with head := 4 } false =
      .ok (name, align_head { mkTnamChunk slot name with
        head := 4 + (name.length + 1) }) := by
    rw [read_string_eq]
    dsimp [mkTnamChunk]
    rw [List.append_assoc, List.drop_left' (le4_length slot)]
    rw [(by omega : 4 + name.length + 1 - 4 = name.length + 1)]
    rw [cstring_length_terminated name [] (name.length + 1) hname (by omega)]
    rw [if_neg (by omega)]
    rw [List.take_left' rfl]
  unfold read_texture_name
  rw [h1]
  simp only [Bind.bind, Except.bind]
  rw [h2]
  simp only [Bind.bind, Except.bind]
  rw [leNat_le4 slot hslot, htex]
  by_cases hs : slot < 4
  · rw [if_pos hs, if_pos hs]
  · rw [if_neg hs, if_neg hs]

/-- Claim C9, witness: the theorem applied at slot 1 (the name is stored
in texture slot 1) and at slot 7 (the texture array is unchanged), with
the one-character name "m". -/
theorem c9_witness :
    read_texture_name (mkTnamChunk 1 [109]) [[], [], [], []] =
      .ok (if 1 < 4 then ([[], [], [], []] : List (List Nat)).set 1 [109]
           else [[], [], [], []]) ∧
    read_texture_name (mkTnamChunk 7 [109]) [[], [], [], []] =
      .ok (if 7 < 4 then ([[], [], [], []] : List (List Nat)).set 7 [109]
           else [[], [], [], []]) :=
  ⟨c9_read_texture_name 1 [109] [[], [], [], []] (by decide)
      (by intro b hb; simp at hb; omega) rfl,
   c9_read_texture_name 7 [109] [[], [], [], []] (by decide)
      (by intro b hb; simp at hb; omega) rfl⟩

/-- Claim C4: in dialect-2 material decoding, for every flag word with the
transparent bit (4) set, the transparent render flag ends up set if and
only if the doublesided bit (65536) is clear (starting from a material
whose transparent flag is not already set, as every segment processor
does), while the doublesided render flag is set whenever the doublesided
bit is set. -/
theorem c4_transparent_doublesided (flags diffuse specular intensity
    p0 p1 : Nat) (attached : List Nat) (out : Material)
    (h4 : are_flags_set flags 4 = true)
    (htr : out.flags.transparent = false) :
    ((apply_material_swbf2 flags diffuse specular intensity p0 p1 attached
        out).flags.transparent = true ↔ ¬are_flags_set flags 65536 = true) ∧
    (are_flags_set flags 65536 = true →
      (apply_material_swbf2 flags diffuse specular intensity p0 p1 attached
        out).flags.doublesided = true) := by
  unfold apply_material_swbf2
  by_cases h65 : are_flags_set flags 65536 = true <;>
    simp [h4, h65, htr, apply_ite (fun m : Material => m.flags.transparent),
      apply_ite (fun m : Material => m.flags.doublesided)]

/-- Claim C4, witness: the theorem applied to the flag word
65540 = transparent (4) + doublesided (65536) on a default material: the
doublesided render flag is set and the transparent render flag is not. -/
theorem c4_witness :
    ((apply_material_swbf2 65540 0 0 0 0 0 [] {}).flags.transparent = true ↔
      ¬are_flags_set 65540 65536 = true) ∧
    (are_flags_set 65540 65536 = true →
      (apply_material_swbf2 65540 0 0 0 0 0 [] {}).flags.doublesided = true) :=
  c4_transparent_doublesided 65540 0 0 0 0 0 [] {} (by decide) rfl

/-- Claim C5, counterexample: the three-character name "abc" read from a
NAME chunk makes `read_model_name` fail — `name_view.length() - 4` wraps
in `std::size_t` and `substr` throws `std::out_of_range` — instead of
returning the unmodified name at LOD zero as the claim states for names
shorter than four characters. -/
theorem c5_counterexample :
    read_model_name
        { mn := NAME_mn, size := 4, data := [97, 98, 99, 0], head := 0 } =
      .error .outOfRange ∧
    (Except.error Err.outOfRange : Except Err (List Nat × Lod)) ≠
      .ok ([97, 98, 99], .zero) := by
  constructor
  · decide
  · decide

/-- Claim C5 (amended): for names of length at least four,
`read_model_name`'s suffix dispatch behaves as claimed — appending LOD1 /
LOD2 / LOWD to any name yields that name with LOD one / two / lowres, and
any other four-character tail leaves the whole name at LOD zero — while a
name shorter than four characters makes it fail with the out-of-range
error of `substr` rather than returning the name at LOD zero. -/
theorem c5_model_name_lod (s name : List Nat) :
    model_name_lod (s ++ strLOD1) = .ok (s, .one) ∧
    model_name_lod (s ++ strLOD2) = .ok (s, .two) ∧
    model_name_lod (s ++ strLOWD) = .ok (s, .lowres) ∧
    (4 ≤ name.length → name.drop (name.length - 4) ≠ strLOD1 →
      name.drop (name.length - 4) ≠ strLOD2 →
      name.drop (name.length - 4) ≠ strLOWD →
      model_name_lod name = .ok (name, .zero)) ∧
    (name.length < 4 → model_name_lod name = .error .outOfRange) := by
  have hsuffix : ∀ (t : List Nat), t.length = 4 →
      (s ++ t).drop ((s ++ t).length - 4) = t ∧
      (s ++ t).take ((s ++ t).length - 4) = s ∧ ¬(s ++ t).length < 4 := by
    intro t ht
    have hlen : (s ++ t).length = s.length + 4 := by simp [ht]
    have harg : (s ++ t).length - 4 = s.length := by omega
    rw [harg]
    exact ⟨List.drop_left _ _, List.take_left _ _, by omega⟩
  refine ⟨?_, ?_, ?_, ?_, ?_⟩
  · obtain ⟨hd, ht, hlt⟩ := hsuffix strLOD1 rfl
    unfold model_name_lod
    rw [if_neg hlt, hd, ht, if_pos rfl]
  · obtain ⟨hd, ht, hlt⟩ := hsuffix strLOD2 rfl
    unfold model_name_lod
    rw [if_neg hlt, hd, ht, if_neg (by decide), if_pos rfl]
  · obtain ⟨hd, ht, hlt⟩ := hsuffix strLOWD rfl
    unfold model_name_lod
    rw [if_neg hlt, hd, ht, if_neg (by decide), if_neg (by decide), if_pos rfl]
  · intro hlen h1 h2 h3
    unfold model_name_lod
    rw [if_neg (by omega), if_neg h1, if_neg h2, if_neg h3]
  · intro hlen
    unfold model_name_lod
    rw [if_pos hlen]

/-- Claim C5, witness: the amended theorem applied to the concrete base
name "box" with each suffix, to the unsuffixed four-character name
"crat", and to the one-character name "a" (which fails out-of-range). -/
theorem c5_witness :
    model_name_lod ([98, 111, 120] ++ strLOD1) = .ok ([98, 111, 120], .one) ∧
    model_name_lod ([98, 111, 120] ++ strLOD2) = .ok ([98, 111, 120], .two) ∧
    model_name_lod ([98, 111, 120] ++ strLOWD) = .ok ([98, 111, 120], .lowres) ∧
    model_name_lod [99, 114, 97, 116] = .ok ([99, 114, 97, 116], .zero) ∧
    model_name_lod [97] = .error .outOfRange :=
  ⟨(c5_model_name_lod [98, 111, 120] []).1,
   (c5_model_name_lod [98, 111, 120] []).2.1,
   (c5_model_name_lod [98, 111, 120] []).2.2.1,
   (c5_model_name_lod [] [99, 114, 97, 116]).2.2.2.1 (by decide) (by decide)
     (by decide) (by decide),
   (c5_model_name_lod [] [97]).2.2.2.2 (by decide)⟩

/-- Claim C3, counterexample: a MTRL chunk of size 0 does not decode as
"dialect-1 empty, material unchanged" — the dialect-1 decoder it
dispatches to unconditionally reads the `u32` flag word, which overruns
the empty payload and fails with a bounds violation. -/
theorem c3_counterexample :
    read_material { mn := MTRL_mn, size := 0, data := [], head := 0 } {} =
      .error .boundsViolation ∧
    (Except.error Err.boundsViolation : Except Err Material) ≠ .ok {} := by
  constructor
  · decide
  · decide

/-- Claim C3 (amended): `read_material` dispatches on the payload size —
strictly below 24 bytes runs the dialect-1 (SWBF1) decoder and 24 or more
runs the dialect-2 decoder; a MTRL of size 0 dispatches to dialect 1 but
fails with a bounds violation on the flag word rather than decoding as
empty; a MTRL of exactly 24 zero bytes plus a terminating NUL decodes as
dialect 2 with the attached-light name left empty. -/
theorem c3_material_dispatch (r : Ucfb_reader) (out : Material) :
    (r.size < 24 → read_material r out = read_material_swbf1 r out) ∧
    (24 ≤ r.size → read_material r out = read_material_swbf2 r out) ∧
    (r.size = 0 → read_material r out = .error .boundsViolation) ∧
    (read_material
        { mn := MTRL_mn, size := 25, data := List.replicate 25 0, head := 0 } {} =
      .ok (apply_material_swbf2 0 0 0 0 0 0 [] {}) ∧
      (apply_material_swbf2 0 0 0 0 0 0 [] {}).attached_light = []) := by
  refine ⟨?_, ?_, ?_, by decide, by decide⟩
  · intro h
    unfold read_material
    rw [if_pos h]
  · intro h
    unfold read_material
    rw [if_neg (by omega)]
  · intro h
    unfold read_material
    rw [if_pos (by omega)]
    unfold read_material_swbf1
    rw [read_bytes_eq, if_pos (by omega)]
    simp only [Bind.bind, Except.bind]

/-- Claim C3, witness: the dispatch applied to a four-byte (dialect-1), a
24-byte (dialect-2) and an empty MTRL chunk. -/
theorem c3_witness :
    read_material { mn := MTRL_mn, size := 4, data := le4 0, head := 0 } {} =
      read_material_swbf1 { mn := MTRL_mn, size := 4, data := le4 0, head := 0 } {} ∧
    read_material
        { mn := MTRL_mn, size := 24, data := List.replicate 24 0, head := 0 } {} =
      read_material_swbf2
        { mn := MTRL_mn, size := 24, data := List.replicate 24 0, head := 0 } {} ∧
    read_material { mn := MTRL_mn, size := 0, data := [], head := 0 } {} =
      .error .boundsViolation :=
  ⟨(c3_material_dispatch
      { mn := MTRL_mn, size := 4, data := le4 0, head := 0 } {}).1 (by decide),
   (c3_material_dispatch
      { mn := MTRL_mn, size := 24, data := List.replicate 24 0, head := 0 } {}).2.1
     (by decide),
   (c3_material_dispatch { mn := MTRL_mn, size := 0, data := [], head := 0 } {}).2.2.1
     rfl⟩

/-- A concrete PS2 "segm" chunk: an INFO child `{vertex_count = 3,
index_count = 5}` followed by an STRP child holding the five `u16`
indices `[0x8000, 0x8001, 2, 3, 4]`. -/
def segC2 : Ucfb_reader :=
  { mn := segm_mn, size := 34,
    data := le4 INFO_mn ++ le4 8 ++ le4 3 ++ le4 5 ++ le4 STRP_mn ++ le4 10 ++
      [0, 128, 1, 128, 2, 0, 3, 0, 4, 0],
    head := 0 }

/-- Claim C2: on the segment `segC2` the PS2 segment processor stores the
STRP buffer verbatim — one strip equal to `[0x8000, 0x8001, 2, 3, 4]`
(i.e. `[32768, 32769, 2, 3, 4]`), marker bits included — because the
STRP branch calls `read_strip_buffer`, which only reinterprets the bytes
as `u16`s; the strip-splitting decoder `read_vertex_strip_ps2`, which on
this buffer would produce the single strip `[0, 1, 2, 3, 4]` the claim
expects, exists in handle_model.cpp but is never invoked. -/
theorem c2_ps2_segment_raw_strip :
    (process_segment_ps2 segC2 .zero []).map (fun m => m.strips) =
      .ok [[32768, 32769, 2, 3, 4]] ∧
    read_vertex_strip_ps2 [32768, 32769, 2, 3, 4] 0 = .ok ([0, 1, 2, 3, 4], 5) ∧
    ([[32768, 32769, 2, 3, 4]] : List (List Nat)) ≠ [[0, 1, 2, 3, 4]] := by
  refine ⟨?_, by decide, by decide⟩
  decide

/-- The object-reader states from which the property-collection loop of
`get_properties` reaches a child whose magic is not PROP: either the next
child read at the head has a different magic, or it is a PROP whose hash
and value parse and the successor state reaches such a child. -/
inductive Reaches_bad_child : Ucfb_reader → Prop where
  | here {r c r2 : Ucfb_reader} (hlt : r.head < r.size)
      (hc : read_child r false = .ok (c, r2)) (hm : c.mn ≠ PROP_mn) :
      Reaches_bad_child r
  | step {r c r2 : Ucfb_reader} {hash_bytes : List Nat} {c2 : Ucfb_reader}
      {value : List Nat} {c3 : Ucfb_reader}
      (hlt : r.head < r.size) (hc : read_child r false = .ok (c, r2))
      (hm : c.mn = PROP_mn) (hp1 : read_bytes c 4 false = .ok (hash_bytes, c2))
      (hp2 : read_string c2 false = .ok (value, c3))
      (hrest : Reaches_bad_child r2) : Reaches_bad_child r

theorem get_propertiesF_bad {r : Ucfb_reader} (h : Reaches_bad_child r) :
    ∀ fuel, r.size - r.head + 1 ≤ fuel →
      get_propertiesF fuel r = .error .unexpectedMagic := by
  induction h with
  | @here r0 c r2 hlt hc hm =>
    intro fuel hf
    cases fuel with
    | zero => omega
    | succ f =>
      simp only [get_propertiesF]
      rw [if_pos (show has_remaining r0 = true by simp [has_remaining]; omega)]
      rw [read_child_strict_err hc hm]
  | @step r0 c r2 hash_bytes c2 value c3 hlt hc hm hp1 hp2 hrest ih =>
    intro fuel hf
    cases fuel with
    | zero => omega
    | succ f =>
      simp only [get_propertiesF]
      rw [if_pos (show has_remaining r0 = true by simp [has_remaining]; omega)]
      have hs : read_child_strict r0 PROP_mn false = .ok (c, r2) :=
        read_child_strict_ok_iff.2 ⟨hc, hm⟩
      have hprog := read_child_ok_progress hc
      have hih : get_propertiesF f r2 = .error .unexpectedMagic := by
        apply ih
        obtain ⟨hsize, _, _, hle1, hle2, _⟩ := hprog
        omega
      simp only [hs, hp1, hp2, hih]

/-- Claim C10: once the strict BASE and TYPE children of an object have
been read, every remaining child must have magic PROP — if the remaining
children lead to any child with a different magic (each earlier child
being a PROP whose hash and value parse), the property-collection loop
`get_properties` fails with the unexpected-magic error, and with it the
whole object emission `handle_object` fails with the same error (while,
in the `Except` embedding, the failing strict read produces no advanced
state: the head is not moved past the offending child). This contrasts
with the segment processors, which skip unrecognized child magics. -/
theorem c10_object_strict_prop (object : Ucfb_reader)
    (lookup_fnv_hash : Nat → List Nat) (type_str : List Nat)
    {class_name odf_name : List Nat} {base o1 type_child o2 bx tx : Ucfb_reader}
    (hb : read_child_strict object BASE_mn false = .ok (base, o1))
    (hbs : read_string base false = .ok (class_name, bx))
    (ht : read_child_strict o1 TYPE_mn false = .ok (type_child, o2))
    (hts : read_string type_child false = .ok (odf_name, tx))
    (hbad : Reaches_bad_child o2) :
    get_properties o2 = .error .unexpectedMagic ∧
    handle_object object lookup_fnv_hash type_str = .error .unexpectedMagic := by
  have hgp : get_properties o2 = .error .unexpectedMagic := by
    unfold get_properties
    exact get_propertiesF_bad hbad (o2.size + 1) (by omega)
  refine ⟨hgp, ?_⟩
  unfold handle_object
  simp only [hb, hbs, ht, hts, hgp, Bind.bind, Except.bind]

/-- A concrete object chunk: a BASE child with class string "a", a TYPE
child with file-name string "b", then one child with magic "XXXX"
(not PROP). -/
def objC10 : Ucfb_reader :=
  { mn := 0, size := 32,
    data := le4 BASE_mn ++ le4 2 ++ [97, 0] ++ [0, 0] ++ le4 TYPE_mn ++ le4 2 ++
      [98, 0] ++ [0, 0] ++ le4 (mnOf 88 88 88 88) ++ le4 0,
    head := 0 }

/-- The BASE child of `objC10`. -/
def baseC10 : Ucfb_reader := { mn := BASE_mn, size := 2, data := [97, 0], head := 0 }

/-- The TYPE child of `objC10`. -/
def typeC10 : Ucfb_reader := { mn := TYPE_mn, size := 2, data := [98, 0], head := 0 }

/-- Claim C10, witness: on the concrete object `objC10` — BASE "a", TYPE
"b", then an "XXXX" child — both the property-collection loop and the
whole emission fail with the unexpected-magic error. -/
theorem c10_witness :
    get_properties { objC10 with head := 24 } = .error .unexpectedMagic ∧
    handle_object objC10 (fun _ => []) [] = .error .unexpectedMagic := by
  have hb : read_child_strict objC10 BASE_mn false =
      .ok (baseC10, { objC10 with head := 12 }) := by decide
  have hbs : read_string baseC10 false =
      .ok ([97], { baseC10 with head := 4 }) := by decide
  have ht : read_child_strict { objC10 with head := 12 } TYPE_mn false =
      .ok (typeC10, { objC10 with head := 24 }) := by decide
  have hts : read_string typeC10 false =
      .ok ([98], { typeC10 with head := 4 }) := by decide
  have hc : read_child { objC10 with head := 24 } false =
      .ok ({ mn := mnOf 88 88 88 88, size := 0, data := [], head := 0 },
        { objC10 with head := 32 }) := by decide
  exact c10_object_strict_prop objC10 (fun _ => []) [] hb hbs ht hts
    (Reaches_bad_child.here (by decide) hc (by decide))
